import Mathlib

/-!
Verification of the CSIRAC virtual machine (a 20-bit historical computer
emulator written in Go) against its natural-language specification.

The Go sources are shallowly embedded: `Word` (a Go `uint32` holding a
20-bit value) becomes `Nat`, with explicit `% 2^32` (`u32`) wherever Go's
`uint32` arithmetic can wrap without an explicit `& allBits` mask, and
`% 2^64` (`u64`) for the one `uint64` product in the multiplier.  Stores
(`[1024]Word`, `[16]Word`) become functions `Nat → Nat`; every index the
machine ever uses is of the form `Hi _` or `Hi _ &&& 0xF` and is therefore
in range by construction.  The three output callbacks (`Printer`,
`TapePunch`, `Loudspeaker`, Go `func(Word)` values that may be `nil`) carry
no machine-visible state, so each is embedded as a `Bool` saying whether it
is set; calling an unset (`nil`) callback is a Go runtime panic, embedded
as the `Sig.nilCall` outcome.
-/

namespace Csirac

/-- Go `uint32` wraparound. -/
def u32 (x : Nat) : Nat := x % 4294967296

/-- Go `uint64` wraparound. -/
def u64 (x : Nat) : Nat := x % 18446744073709551616

/-! ### word.go: constants and bit-field accessors -/

def allBits : Nat := 0xFFFFF
def lo10 : Nat := 0x3FF
def hi10 : Nat := 0xFFC00
def signBit : Nat := 0x80000
def sourceMask : Nat := 0x3E0
def destMask : Nat := 0x1F

/-- word.go `P`: a Word with only the Pn bit (1-indexed) set. -/
def P (n : Nat) : Nat := 1 <<< (n - 1)

/-- word.go `Word.P`: the Pn bit of the word as a 0 or 1. -/
def wordP (w n : Nat) : Nat := (w &&& (1 <<< (n - 1))) >>> (n - 1)

/-- word.go `Word.Lo`: the value in the lower 10 bits (p1 - p10). -/
def Lo (w : Nat) : Nat := w &&& lo10

/-- word.go `Word.Hi`: the value in the upper 10 bits (p11 - p20). -/
def Hi (w : Nat) : Nat := (w &&& hi10) >>> 10

/-- word.go `Word.Source`: the upper 5 bits of the lower 10 bits (p6 - p10). -/
def Source (w : Nat) : Nat := (w &&& sourceMask) >>> 5

/-- word.go `Word.Dest`: the lowest 5 bits (p1 - p5). -/
def Dest (w : Nat) : Nat := w &&& destMask

/-- Width-2 space-padded decimal, Go's `%2d` for arguments below 100. -/
def pad2 (n : Nat) : String := if n < 10 then " " ++ Nat.repr n else Nat.repr n

/-- word.go `Word.String`: `fmt.Sprintf("(%2d,%2d,%2d,%2d)", w>>15,
(w>>10)&0x1f, (w>>5)&0x1f, w&0x1f)`. -/
def wordString (w : Nat) : String :=
  "(" ++ pad2 (w >>> 15) ++ "," ++ pad2 ((w >>> 10) &&& 0x1F) ++ ","
      ++ pad2 ((w >>> 5) &&& 0x1F) ++ "," ++ pad2 (w &&& 0x1F) ++ ")"

/-- word.go `ParseInstruction` result encoding: `Word(n0<<15 + n1<<10 + sv<<5 + dv)`. -/
def encInst (n0 n1 sv dv : Nat) : Nat := n0 <<< 15 + n1 <<< 10 + sv <<< 5 + dv

/-! ### csirac.go: machine state -/

/-- The entire CSIRAC machine state (struct `CSIRAC`). -/
structure CSIRAC where
  A : Nat
  B : Nat
  C : Nat
  H : Nat
  D : Nat → Nat
  S : Nat
  K : Nat
  I : Nat
  NA : Nat
  NB : Nat
  M : Nat → Nat
  MA : Nat → Nat
  MB : Nat → Nat
  MC : Nat → Nat
  MD : Nat → Nat
  printerSet : Bool
  tapePunchSet : Bool
  loudspeakerSet : Bool

/-- Pointwise array-cell update. -/
def upd (f : Nat → Nat) (i v : Nat) : Nat → Nat := fun j => if j = i then v else f j

/-- Outcome of `WriteDest` (Go: `error` return plus possible runtime panic).
`ok` is a `nil` error, `stop` is `ErrStop`, `nilCall` is the runtime panic
raised by calling a `nil` function value. -/
inductive Sig where
  | ok : Sig
  | stop : Sig
  | nilCall : Sig
deriving DecidableEq

/-- csirac.go `ReadSource`: reads the source field from K and uses it to read
a word from one of 32 sources; source 9 also clears A.  The final catch-all
arm mirrors the Go `panic` for a source value outside [0,31], which is
unreachable because `Source` masks to 5 bits. -/
def ReadSource (c : CSIRAC) : Nat × CSIRAC :=
  match Source c.K with
  | 0 => (c.M (Hi c.K), c)
  | 1 => (c.I, c)
  | 2 => (c.NA, c)
  | 3 => (c.NB, c)
  | 4 => (c.A, c)
  | 5 => (c.A &&& signBit, c)
  | 6 => ((c.A >>> 1) ||| (c.A &&& signBit), c)
  | 7 => (u32 (c.A <<< 1) &&& allBits, c)
  | 8 => (c.A &&& 1, c)
  | 9 => (c.A, { c with A := 0 })
  | 10 => (if c.A = 0 then 0 else 1, c)
  | 11 => (c.B, c)
  | 12 => (wordP c.B 20, c)
  | 13 => (c.B >>> 1, c)
  | 14 => (c.C, c)
  | 15 => (c.C &&& signBit, c)
  | 16 => (c.C >>> 1, c)
  | 17 => (c.D (Hi c.K &&& 0xF), c)
  | 18 => (c.D (Hi c.K &&& 0xF) &&& signBit, c)
  | 19 => (c.D (Hi c.K &&& 0xF) >>> 1, c)
  | 20 => (0, c)
  | 21 => (c.H, c)
  | 22 => (u32 (c.H <<< 10), c)
  | 23 => (c.S, c)
  | 24 => (P 11, c)
  | 25 => (1, c)
  | 26 => (c.K &&& hi10, c)
  | 27 => (c.MA (Hi c.K), c)
  | 28 => (c.MB (Hi c.K), c)
  | 29 => (c.MC (Hi c.K), c)
  | 30 => (c.MD (Hi c.K), c)
  | 31 => (signBit, c)
  | _ => (0, c)

/-- csirac.go, destination 13: `n := (src.Hi()>>1)&0xf + 1` (Go `&` binds
tighter than `+`). -/
def shiftCount (src : Nat) : Nat := ((Hi src >>> 1) &&& 0xF) + 1

/-- csirac.go `WriteDest`: writes `src` to one of 32 destinations selected by
the dest field of `inst`.  Destinations 2 and 3 guard their callback with a
`nil` check and never change machine state; destination 10 calls
`c.Loudspeaker(src)` unguarded, so an unset loudspeaker is a `nil`-function
panic (`Sig.nilCall`).  The final catch-all arm mirrors the Go `panic` for a
dest value outside [0,31], unreachable because `Dest` masks to 5 bits. -/
def WriteDest (c : CSIRAC) (inst src : Nat) : CSIRAC × Sig :=
  match Dest inst with
  | 0 => ({ c with M := upd c.M (Hi inst) src }, .ok)
  | 1 => (c, .ok)
  | 2 => (c, .ok)
  | 3 => (c, .ok)
  | 4 => ({ c with A := src }, .ok)
  | 5 => ({ c with A := u32 (c.A + src) &&& allBits }, .ok)
  | 6 => ({ c with A := u32 (c.A + (4294967296 - u32 src)) &&& allBits }, .ok)
  | 7 => ({ c with A := c.A &&& src }, .ok)
  | 8 => ({ c with A := c.A ||| src }, .ok)
  | 9 => ({ c with A := c.A ^^^ src }, .ok)
  | 10 => (c, if c.loudspeakerSet then .ok else .nilCall)
  | 11 => ({ c with B := src }, .ok)
  | 12 =>
    let sign := (src &&& signBit) ^^^ (c.C &&& signBit)
    let prod := (src &&& 0xFFF7FFFF) * (c.C &&& 0xFFF7FFFF)
    ({ c with A := u32 (c.A + sign + u32 (prod >>> 19)) &&& allBits,
              B := u32 (u64 (prod <<< 1)) &&& allBits }, .ok)
  | 13 =>
    if wordP src 20 ≠ 1 then (c, .ok)
    else
      let n := shiftCount src
      let a := u32 (c.A <<< n)
      let b := u32 (c.B <<< n)
      ({ c with A := u32 (a + (b >>> 20)) &&& allBits,
                B := u32 (b + (a >>> 20)) &&& allBits }, .ok)
  | 14 => ({ c with C := src }, .ok)
  | 15 => ({ c with C := u32 (c.C + src) &&& allBits }, .ok)
  | 16 => ({ c with C := u32 (c.C + (4294967296 - u32 src)) &&& allBits }, .ok)
  | 17 => ({ c with D := upd c.D (Hi inst &&& 0xF) src }, .ok)
  | 18 => ({ c with D := upd c.D (Hi inst &&& 0xF)
                          (u32 (c.D (Hi inst &&& 0xF) + src) &&& allBits) }, .ok)
  | 19 => ({ c with D := upd c.D (Hi inst &&& 0xF)
                          (u32 (c.D (Hi inst &&& 0xF) + (4294967296 - u32 src)) &&& allBits) }, .ok)
  | 20 => (c, .ok)
  | 21 => ({ c with H := Lo src }, .ok)
  | 22 => ({ c with H := Hi src }, .ok)
  | 23 => ({ c with S := src, K := c.M (Hi src) }, .ok)
  | 24 =>
    let s := u32 (c.S + src)
    ({ c with S := s, K := c.M (Hi s) }, .ok)
  | 25 =>
    let s1 := if src &&& 0x007FF ≠ 0 then u32 (c.S + P 11) else c.S
    let s2 := if src &&& 0xFC000 ≠ 0 then u32 (s1 + P 11) else s1
    ({ c with S := s2, K := c.M (Hi s2) }, .ok)
  | 26 => ({ c with K := u32 (c.K + src) &&& allBits }, .ok)
  | 27 => ({ c with MA := upd c.MA (Hi inst) src }, .ok)
  | 28 => ({ c with MB := upd c.MB (Hi inst) src }, .ok)
  | 29 => ({ c with MC := upd c.MC (Hi inst) src }, .ok)
  | 30 => ({ c with MD := upd c.MD (Hi inst) src }, .ok)
  | 31 => (if src ≠ 0 then (c, .stop) else (c, .ok))
  | _ => (c, .nilCall)

/-- csirac.go `Step`: snapshot the instruction register, read the source,
unconditionally advance S by one `P(11)` unit and refetch K from the store
at the new address (the default fetch), then invoke `WriteDest`. -/
def Step (c : CSIRAC) : CSIRAC × Sig :=
  let inst := c.K
  let rs := ReadSource c
  let c1 := rs.2
  let c2 := { c1 with S := u32 (c1.S + P 11) }
  let c3 := { c2 with K := c2.M (Hi c2.S) }
  WriteDest c3 inst rs.1

/-- Result of the execution loop (`Run` in csirac.go). -/
inductive RunOut where
  | stoppedOk : RunOut
  | fuelOut : RunOut
  | crashed : RunOut
deriving DecidableEq

/-- csirac.go `Run`, fuel-indexed: run `Step` repeatedly until a stop.  When
`Step` returns `ErrStop` the Go loop returns `nil` (modelled as
`RunOut.stoppedOk`); a panic propagates (`RunOut.crashed`).  The fuel bounds
the otherwise unbounded loop; `fuelOut` means the machine was still running.
The paced (`period > 0`) and trace variants of the Go loop execute the same
steps and differ only in timing and printing. -/
def Run : Nat → CSIRAC → CSIRAC × RunOut
  | 0, c => (c, .fuelOut)
  | n + 1, c =>
    match Step c with
    | (c2, .ok) => Run n c2
    | (c2, .stop) => (c2, .stoppedOk)
    | (c2, .nilCall) => (c2, .crashed)

/-! ### Bridging lemmas: bit operations to arithmetic -/

theorem and_two_pow_eq (x k : Nat) : x &&& 2 ^ k = 2 ^ k * (x / 2 ^ k % 2) := by
  rw [Nat.and_two_pow, Nat.testBit_to_div_mod]
  rcases Nat.mod_two_eq_zero_or_one (x / 2 ^ k) with h | h <;> simp [h, Nat.mul_comm]

theorem and_shifted_mask (x a b : Nat) :
    x &&& 2 ^ a * (2 ^ b - 1) = 2 ^ a * (x / 2 ^ a % 2 ^ b) := by
  have h1 : 2 ^ a * (2 ^ b - 1) = (2 ^ b - 1) <<< a := by
    rw [Nat.shiftLeft_eq, Nat.mul_comm]
  have h2 : x &&& (2 ^ b - 1) <<< a = ((x >>> a) &&& (2 ^ b - 1)) <<< a := by
    apply Nat.eq_of_testBit_eq
    intro i
    simp only [Nat.testBit_and, Nat.testBit_shiftLeft, Nat.testBit_shiftRight]
    by_cases h : a ≤ i
    · have hia : a + (i - a) = i := by omega
      simp only [ge_iff_le, h, decide_True, Bool.true_and, hia]
    · simp [ge_iff_le, h]
  rw [h1, h2, Nat.and_pow_two_sub_one_eq_mod, Nat.shiftLeft_eq, Nat.shiftRight_eq_div_pow,
    Nat.mul_comm]

theorem and_mask_1 (x : Nat) : x &&& 1 = x % 2 := Nat.and_one_is_mod x

theorem and_mask_31 (x : Nat) : x &&& 31 = x % 32 := by
  have h := Nat.and_pow_two_sub_one_eq_mod x 5
  norm_num at h
  exact h

theorem and_mask_15 (x : Nat) : x &&& 15 = x % 16 := by
  have h := Nat.and_pow_two_sub_one_eq_mod x 4
  norm_num at h
  exact h

theorem and_mask_2047 (x : Nat) : x &&& 2047 = x % 2048 := by
  have h := Nat.and_pow_two_sub_one_eq_mod x 11
  norm_num at h
  exact h

theorem and_mask_1023 (x : Nat) : x &&& 1023 = x % 1024 := by
  have h := Nat.and_pow_two_sub_one_eq_mod x 10
  norm_num at h
  exact h

theorem and_mask_allBits (x : Nat) : x &&& 1048575 = x % 1048576 := by
  have h := Nat.and_pow_two_sub_one_eq_mod x 20
  norm_num at h
  exact h

theorem and_mask_524287 (x : Nat) : x &&& 524287 = x % 524288 := by
  have h := Nat.and_pow_two_sub_one_eq_mod x 19
  norm_num at h
  exact h

theorem and_sign_eq (x : Nat) : x &&& signBit = 524288 * (x / 524288 % 2) := by
  have h := and_two_pow_eq x 19
  norm_num at h
  exact h

theorem wordP20_eq (x : Nat) : wordP x 20 = x / 524288 % 2 := by
  have h19 : (1 : Nat) <<< 19 = 524288 := by norm_num [Nat.shiftLeft_eq]
  have h := and_two_pow_eq x 19
  norm_num at h
  rw [wordP]
  norm_num [h19, h, Nat.shiftRight_eq_div_pow]

theorem Hi_eq (w : Nat) : Hi w = w / 1024 % 1024 := by
  have h := and_shifted_mask w 10 10
  norm_num at h
  rw [Hi, hi10]
  norm_num [h, Nat.shiftRight_eq_div_pow]

theorem Lo_eq (w : Nat) : Lo w = w % 1024 := by
  rw [Lo, lo10]
  exact and_mask_1023 w

theorem Source_eq (w : Nat) : Source w = w / 32 % 32 := by
  have h := and_shifted_mask w 5 5
  norm_num at h
  rw [Source, sourceMask]
  norm_num [h, Nat.shiftRight_eq_div_pow]

theorem Dest_eq (w : Nat) : Dest w = w % 32 := by
  rw [Dest, destMask]
  exact and_mask_31 w

theorem highRange_and_eq (x : Nat) : x &&& 0xFC000 = 16384 * (x / 16384 % 64) := by
  have h := and_shifted_mask x 14 6
  norm_num at h
  exact h

theorem clear_sign_eq (x : Nat) (h : x < 1048576) : x &&& 0xFFF7FFFF = x % 524288 := by
  have h20 : x &&& 1048575 = x := by rw [and_mask_allBits]; exact Nat.mod_eq_of_lt h
  have hm : (1048575 : Nat) &&& 0xFFF7FFFF = 524287 := by decide
  calc x &&& 0xFFF7FFFF = (x &&& 1048575) &&& 0xFFF7FFFF := by rw [h20]
    _ = x &&& (1048575 &&& 0xFFF7FFFF) := Nat.and_assoc x 1048575 0xFFF7FFFF
    _ = x &&& 524287 := by rw [hm]
    _ = x % 524288 := and_mask_524287 x

theorem u32_mod_allBits (x : Nat) : u32 x &&& allBits = x % 1048576 := by
  show u32 x &&& 1048575 = x % 1048576
  rw [and_mask_allBits, u32]
  exact Nat.mod_mod_of_dvd x (by norm_num)

theorem u32_eq_of_lt (x : Nat) (h : x < 4294967296) : u32 x = x := Nat.mod_eq_of_lt h

theorem dest_lt_32 (w : Nat) : Dest w < 32 := by
  rw [Dest_eq]
  exact Nat.mod_lt w (by norm_num)

theorem source_lt_32 (w : Nat) : Source w < 32 := by
  rw [Source_eq]
  exact Nat.mod_lt _ (by norm_num)

/-! ### Per-destination unfolding of WriteDest -/

theorem WriteDest_dest12 (c : CSIRAC) (inst src : Nat) (h : Dest inst = 12) :
    WriteDest c inst src =
      ({ c with A := u32 (c.A + ((src &&& signBit) ^^^ (c.C &&& signBit))
                          + u32 (((src &&& 0xFFF7FFFF) * (c.C &&& 0xFFF7FFFF)) >>> 19)) &&& allBits,
                B := u32 (u64 (((src &&& 0xFFF7FFFF) * (c.C &&& 0xFFF7FFFF)) <<< 1)) &&& allBits },
       .ok) := by
  unfold WriteDest
  rw [h]

/-- A sample machine state: all registers and cells zero except C, which
holds `0x40000`, the fixed-point encoding of the fraction one half. -/
def halfC : CSIRAC :=
  { A := 0, B := 0, C := 262144, H := 0, D := fun _ => 0, S := 0, K := 0, I := 0,
    NA := 0, NB := 0, M := fun _ => 0, MA := fun _ => 0, MB := fun _ => 0,
    MC := fun _ => 0, MD := fun _ => 0,
    printerSet := false, tapePunchSet := false, loudspeakerSet := false }

/-- C1: for every machine state and value v, the multiply destination
(dest field 12) forms the result sign as the XOR of bit 20 of v and of C,
multiplies the two 19-bit magnitudes (v and C with bit 20 cleared) as
unsigned integers into a product below 2^38, replaces A by
(A + result-sign-bit-value + top 19 bits of the product) masked to 20 bits,
and replaces B by the bottom 19 bits of the product shifted left one place,
so that bit 1 of the new B is 0. -/
theorem mul_dest_spec (c : CSIRAC) (inst v : Nat)
    (hd : Dest inst = 12) (hv : v < 1048576) (hC : c.C < 1048576) :
    (WriteDest c inst v).1.A =
      (c.A + (if v / 524288 % 2 ≠ c.C / 524288 % 2 then 524288 else 0)
           + (v % 524288) * (c.C % 524288) / 524288) % 1048576 ∧
    (WriteDest c inst v).1.B = (v % 524288) * (c.C % 524288) % 524288 * 2 ∧
    (WriteDest c inst v).1.B % 2 = 0 ∧
    (v % 524288) * (c.C % 524288) < 274877906944 := by
  have hm1 : v % 524288 < 524288 := Nat.mod_lt _ (by norm_num)
  have hm2 : c.C % 524288 < 524288 := Nat.mod_lt _ (by norm_num)
  have hprod : (v % 524288) * (c.C % 524288) < 274877906944 := by
    calc (v % 524288) * (c.C % 524288) < 524288 * 524288 :=
          Nat.mul_lt_mul_of_lt_of_lt hm1 hm2
      _ = 274877906944 := by norm_num
  rw [WriteDest_dest12 c inst v hd]
  simp only [clear_sign_eq v hv, clear_sign_eq c.C hC, and_sign_eq]
  set p : Nat := (v % 524288) * (c.C % 524288) with hp
  have hsign : 524288 * (v / 524288 % 2) ^^^ 524288 * (c.C / 524288 % 2)
      = (if v / 524288 % 2 ≠ c.C / 524288 % 2 then 524288 else 0) := by
    rcases Nat.mod_two_eq_zero_or_one (v / 524288) with h1 | h1 <;>
      rcases Nat.mod_two_eq_zero_or_one (c.C / 524288) with h2 | h2 <;>
      simp [h1, h2]
  have hshift : p >>> 19 = p / 524288 := by
    rw [Nat.shiftRight_eq_div_pow]
  have hdiv : p / 524288 < 524288 := by
    apply Nat.div_lt_of_lt_mul; omega
  have hu32s : u32 (p >>> 19) = p / 524288 := by
    rw [hshift]; exact u32_eq_of_lt _ (by omega)
  have hsl : p <<< 1 = p * 2 := by rw [Nat.shiftLeft_eq]
  have h64 : u64 (p <<< 1) = p * 2 := by
    rw [hsl]; exact Nat.mod_eq_of_lt (by omega)
  constructor
  · rw [hsign, hu32s, u32_mod_allBits]
  constructor
  · rw [h64, u32_mod_allBits]
    have h2 : p * 2 % 1048576 = p % 524288 * 2 := by
      have := Nat.mul_mod_mul_right 2 p 524288
      omega
    exact h2
  constructor
  · rw [h64, u32_mod_allBits]
    omega
  · exact hprod

/-- Witness for C1: multiplying the magnitudes encoding 1/2 and 1/2 puts the
encoding of 1/4 (0x20000) into A, and mixed-sign magnitudes
(-1/2 times 1/2) produce a sign-bit-set A of 0xA0000. -/
theorem mul_dest_spec_witness :
    (WriteDest halfC 12 262144).1.A = 131072 ∧
    (WriteDest halfC 12 786432).1.A = 655360 ∧ 655360 / 524288 % 2 = 1 := by
  refine ⟨?_, ?_, by norm_num⟩
  · rw [(mul_dest_spec halfC 12 262144 (by decide) (by decide) (by decide)).1]
    decide
  · rw [(mul_dest_spec halfC 12 786432 (by decide) (by decide) (by decide)).1]
    decide

/-- C6: `WriteDest` signals machine stop exactly when the destination field is
31 and the incoming value is nonzero; a destination-31 write never changes
machine state; and as soon as the run loop sees the stop signal it executes
no further instruction and returns the stopped-normally result (Go `nil`),
not an error. -/
theorem stop_dest_spec (c : CSIRAC) (inst v n : Nat) (s : CSIRAC) :
    ((WriteDest c inst v).2 = Sig.stop ↔ (Dest inst = 31 ∧ v ≠ 0)) ∧
    (Dest inst = 31 → (WriteDest c inst v).1 = c) ∧
    ((Step s).2 = Sig.stop → Run (n + 1) s = ((Step s).1, RunOut.stoppedOk)) := by
  refine ⟨?_, ?_, ?_⟩
  · unfold WriteDest
    generalize hD : Dest inst = d
    have h32 : d < 32 := hD ▸ dest_lt_32 inst
    interval_cases d <;> simp <;> split <;> simp_all
  · intro hD
    unfold WriteDest
    rw [hD]
    split <;> first | rfl | omega | (split <;> rfl)
  · intro hstop
    rcases hE : Step s with ⟨s2, sg⟩
    rw [hE] at hstop
    simp only at hstop
    subst hstop
    simp [Run, hE]

/-- A machine whose first instruction is `31 31 K T`: destination 31 (stop)
fed from source 25 (the constant 1). -/
def stopper : CSIRAC := { halfC with C := 0, K := 831 }

/-- Witness for C6: on a concrete machine the stop destination signals a
stop, and the run loop halts at once with the stopped-normally result. -/
theorem stop_dest_spec_witness :
    (WriteDest stopper 831 1).2 = Sig.stop ∧
    Run 5 stopper = ((Step stopper).1, RunOut.stoppedOk) := by
  constructor
  · exact ((stop_dest_spec stopper 831 1 0 stopper).1).mpr ⟨by decide, by decide⟩
  · exact (stop_dest_spec stopper 831 1 4 stopper).2.2 (by decide)

/-- C8 (failing-input evaluation): with all three output callbacks unset,
destinations 2 (printer) and 3 (tape punch) are guarded no-ops as the spec
requires, but destination 10 (loudspeaker) invokes the `nil` callback and
panics instead of being tolerated silently. -/
theorem sink_nil_panic :
    halfC.printerSet = false ∧ halfC.tapePunchSet = false ∧
    halfC.loudspeakerSet = false ∧
    WriteDest halfC 2 5 = (halfC, Sig.ok) ∧
    WriteDest halfC 3 5 = (halfC, Sig.ok) ∧
    (WriteDest halfC 10 5).1 = halfC ∧
    (WriteDest halfC 10 5).2 = Sig.nilCall :=
  ⟨rfl, rfl, rfl, rfl, rfl, rfl, rfl⟩

/-- C9 as stated is false on the decoder: `Dest` does not read bits 16-20
(at `w = 0x8000`, bits 16-20 hold 1 but `Dest` yields 0), and `Source` does
not read bits 11-15 (at `w = 0x400`, bits 11-15 hold 1 but `Source` yields
0). -/
theorem decode_fields_cex :
    ¬ (Dest 32768 = 32768 / 32768 % 32) ∧ ¬ (Source 1024 = 1024 / 1024 % 32) := by
  decide

/-- C9 amended: the destination selector is bits 1-5 (`Dest w = w mod 32`),
the source selector is bits 6-10, the low 10 bits are the `Lo` field and the
literal/address operand sits in the upper 10 bits (`Hi`); the instruction
encoder packs its two 5-bit address groups into `Hi`, the source mnemonic
into bits 6-10 and the destination mnemonic into bits 1-5. -/
theorem decode_fields (w n0 n1 sv dv : Nat)
    (h0 : n0 < 32) (h1 : n1 < 32) (hs : sv < 32) (hd : dv < 32) :
    Dest w = w % 32 ∧ Source w = w / 32 % 32 ∧ Lo w = w % 1024 ∧
    Hi w = w / 1024 % 1024 ∧
    Dest (encInst n0 n1 sv dv) = dv ∧ Source (encInst n0 n1 sv dv) = sv ∧
    Hi (encInst n0 n1 sv dv) = 32 * n0 + n1 := by
  have he : encInst n0 n1 sv dv = n0 * 32768 + n1 * 1024 + sv * 32 + dv := by
    unfold encInst
    rw [Nat.shiftLeft_eq, Nat.shiftLeft_eq, Nat.shiftLeft_eq]
  refine ⟨Dest_eq w, Source_eq w, Lo_eq w, Hi_eq w, ?_, ?_, ?_⟩
  · rw [he, Dest_eq]; omega
  · rw [he, Source_eq]; omega
  · rw [he, Hi_eq]; omega

/-- Witness for C9 (amended): decoding the encoded instruction
`1 2 <source 3> <dest 4>` recovers each field. -/
theorem decode_fields_witness :
    Dest (encInst 1 2 3 4) = 4 ∧ Source (encInst 1 2 3 4) = 3 ∧
    Hi (encInst 1 2 3 4) = 34 := by
  have h := decode_fields 0 1 2 3 4 (by norm_num) (by norm_num) (by norm_num)
    (by norm_num)
  exact ⟨h.2.2.2.2.1, h.2.2.2.2.2.1, h.2.2.2.2.2.2⟩

/-- C10 as stated is false: the Word formatter is not a signed decimal
(0 does not print as "0", nor 0xFFFFF as "-1"). -/
theorem wordString_cex : wordString 0 ≠ "0" ∧ wordString 1048575 ≠ "-1" := by
  decide

/-- C10 amended: the Word formatter is a parenthesised four-group base-32
number train, each 5-bit group printed as a width-2 space-padded decimal;
in particular 0 prints as "( 0, 0, 0, 0)", 1 as "( 0, 0, 0, 1)", 0x7FFFF as
"(15,31,31,31)", 0xFFFFF as "(31,31,31,31)" and 0x80000 as "(16, 0, 0, 0)". -/
theorem wordString_number_train (w : Nat) :
    wordString w = "(" ++ pad2 (w / 32768) ++ "," ++ pad2 (w / 1024 % 32) ++ ","
        ++ pad2 (w / 32 % 32) ++ "," ++ pad2 (w % 32) ++ ")" ∧
    wordString 0 = "( 0, 0, 0, 0)" ∧ wordString 1 = "( 0, 0, 0, 1)" ∧
    wordString 524287 = "(15,31,31,31)" ∧ wordString 1048575 = "(31,31,31,31)" ∧
    wordString 524288 = "(16, 0, 0, 0)" := by
  refine ⟨?_, by decide, by decide, by decide, by decide, by decide⟩
  unfold wordString
  simp only [Nat.shiftRight_eq_div_pow, and_mask_31]

/-! ### Combined shift (destination 13) -/

theorem WriteDest_dest13 (c : CSIRAC) (inst src : Nat) (h : Dest inst = 13) :
    WriteDest c inst src =
      if wordP src 20 ≠ 1 then (c, .ok)
      else
        ({ c with
            A := u32 (u32 (c.A <<< shiftCount src)
                      + (u32 (c.B <<< shiftCount src) >>> 20)) &&& allBits,
            B := u32 (u32 (c.B <<< shiftCount src)
                      + (u32 (c.A <<< shiftCount src) >>> 20)) &&& allBits },
         .ok) := by
  unfold WriteDest
  rw [h]

/-- Mathematical 40-bit left rotation of `x` by `n` places (`1 ≤ n ≤ 39`),
the operation the spec describes for the combined Acc/Mul shifter. -/
def rot40 (x n : Nat) : Nat := x * 2 ^ n % 2 ^ 40 + x / 2 ^ (40 - n)

theorem rot40_core (n : Nat) (hn2 : n ≤ 20) (A B : Nat)
    (hA : A < 1048576) (hB : B < 1048576) :
    (A * 2 ^ n + B * 2 ^ n / 1048576) % 1048576
        = rot40 (A * 1048576 + B) n / 1048576 ∧
    (B * 2 ^ n + A * 2 ^ n / 1048576) % 1048576
        = rot40 (A * 1048576 + B) n % 1048576 := by
  have hMN : 2 ^ (20 - n) * 2 ^ n = 1048576 := by
    rw [← pow_add]
    have h20 : 20 - n + n = 20 := by omega
    rw [h20]
    norm_num
  set N := 2 ^ n with hNdef
  set M := 2 ^ (20 - n) with hMdef
  have hNpos : 0 < N := pow_pos (by norm_num) n
  have hMpos : 0 < M := pow_pos (by norm_num) (20 - n)
  set aq := A / M with haqdef
  set ar := A % M with hardef
  set bq := B / M with hbqdef
  set br := B % M with hbrdef
  have hAdec : A = M * aq + ar := (Nat.div_add_mod A M).symm
  have hBdec : B = M * bq + br := (Nat.div_add_mod B M).symm
  have harlt : ar < M := Nat.mod_lt _ hMpos
  have hbrlt : br < M := Nat.mod_lt _ hMpos
  have haqlt : aq < N := by
    rw [Nat.div_lt_iff_lt_mul hMpos, mul_comm N M, hMN]
    exact hA
  have hbqlt : bq < N := by
    rw [Nat.div_lt_iff_lt_mul hMpos, mul_comm N M, hMN]
    exact hB
  have harN : ar * N + N ≤ 1048576 := by
    have h : (ar + 1) * N ≤ M * N := Nat.mul_le_mul_right N harlt
    rw [hMN] at h
    calc ar * N + N = (ar + 1) * N := by ring
      _ ≤ 1048576 := h
  have hbrN : br * N + N ≤ 1048576 := by
    have h : (br + 1) * N ≤ M * N := Nat.mul_le_mul_right N hbrlt
    rw [hMN] at h
    calc br * N + N = (br + 1) * N := by ring
      _ ≤ 1048576 := h
  have tAN : A * N = aq * 1048576 + ar * N := by
    calc A * N = (M * aq + ar) * N := by rw [← hAdec]
      _ = aq * (M * N) + ar * N := by ring
      _ = aq * 1048576 + ar * N := by rw [hMN]
  have tBN : B * N = bq * 1048576 + br * N := by
    calc B * N = (M * bq + br) * N := by rw [← hBdec]
      _ = bq * (M * N) + br * N := by ring
      _ = bq * 1048576 + br * N := by rw [hMN]
  have tBdiv : B * N / 1048576 = bq := by
    rw [tBN]
    rw [show bq * 1048576 + br * N = 1048576 * bq + br * N by ring]
    rw [Nat.mul_add_div (by norm_num)]
    rw [Nat.div_eq_of_lt (by omega)]
    omega
  have tAdiv : A * N / 1048576 = aq := by
    rw [tAN]
    rw [show aq * 1048576 + ar * N = 1048576 * aq + ar * N by ring]
    rw [Nat.mul_add_div (by norm_num)]
    rw [Nat.div_eq_of_lt (by omega)]
    omega
  have hXN : (A * 1048576 + B) * N % 2 ^ 40
      = ar * N * 1048576 + bq * 1048576 + br * N := by
    have hexp : (A * 1048576 + B) * N
        = aq * 1099511627776 + (ar * N * 1048576 + bq * 1048576 + br * N) := by
      calc (A * 1048576 + B) * N = (A * N) * 1048576 + B * N := by ring
        _ = (aq * 1048576 + ar * N) * 1048576 + (bq * 1048576 + br * N) := by
            rw [tAN, tBN]
        _ = aq * 1099511627776 + (ar * N * 1048576 + bq * 1048576 + br * N) := by
            ring
    rw [hexp]
    have h40 : (2 : Nat) ^ 40 = 1099511627776 := by norm_num
    rw [h40, show aq * 1099511627776 + (ar * N * 1048576 + bq * 1048576 + br * N)
        = (ar * N * 1048576 + bq * 1048576 + br * N) + aq * 1099511627776 by ring]
    rw [Nat.add_mul_mod_self_right]
    apply Nat.mod_eq_of_lt
    have h1 : ar * N * 1048576 ≤ (1048576 - N) * 1048576 :=
      Nat.mul_le_mul_right _ (by omega)
    have h2 : bq * 1048576 ≤ (N - 1) * 1048576 :=
      Nat.mul_le_mul_right _ (by omega)
    have h3 : (1048576 - N) * 1048576 + (N - 1) * 1048576 + 1048576
        = 1099511627776 := by
      have hN20 : N ≤ 1048576 := by omega
      zify [hN20, show (1 : Nat) ≤ N from hNpos]
      ring
    omega
  have hXdiv : (A * 1048576 + B) / 2 ^ (40 - n) = aq := by
    have hden : (2 : Nat) ^ (40 - n) = 1048576 * M := by
      have h : 40 - n = 20 + (20 - n) := by omega
      rw [h, pow_add]
      norm_num
    have hexp : A * 1048576 + B = 1048576 * M * aq + (ar * 1048576 + B) := by
      calc A * 1048576 + B = (M * aq + ar) * 1048576 + B := by rw [← hAdec]
        _ = 1048576 * M * aq + (ar * 1048576 + B) := by ring
    rw [hden, hexp, Nat.mul_add_div (by positivity)]
    have hsmall : ar * 1048576 + B < 1048576 * M := by
      have h1 : (ar + 1) * 1048576 ≤ M * 1048576 :=
        Nat.mul_le_mul_right _ harlt
      have h2 : ar * 1048576 + 1048576 = (ar + 1) * 1048576 := by ring
      have h3 : M * 1048576 = 1048576 * M := by ring
      omega
    rw [Nat.div_eq_of_lt hsmall]
    omega
  unfold rot40
  rw [hXN, hXdiv, tBdiv, tAdiv, tAN, tBN]
  constructor
  · rw [show aq * 1048576 + ar * N + bq = (ar * N + bq) + aq * 1048576 by ring]
    rw [Nat.add_mul_mod_self_right]
    rw [Nat.mod_eq_of_lt (by omega)]
    rw [show ar * N * 1048576 + bq * 1048576 + br * N + aq
        = 1048576 * (ar * N + bq) + (br * N + aq) by ring]
    rw [Nat.mul_add_div (by norm_num)]
    rw [Nat.div_eq_of_lt (by omega)]
    omega
  · rw [show bq * 1048576 + br * N + aq = (br * N + aq) + bq * 1048576 by ring]
    rw [Nat.add_mul_mod_self_right]
    rw [Nat.mod_eq_of_lt (by omega)]
    rw [show ar * N * 1048576 + bq * 1048576 + br * N + aq
        = (br * N + aq) + (ar * N + bq) * 1048576 by ring]
    rw [Nat.add_mul_mod_self_right]
    rw [Nat.mod_eq_of_lt (by omega)]

theorem shiftCount_bounds (v : Nat) : 1 ≤ shiftCount v ∧ shiftCount v ≤ 16 := by
  unfold shiftCount
  have h := and_mask_15 (Hi v >>> 1)
  constructor
  · omega
  · have : (Hi v >>> 1) % 16 < 16 := Nat.mod_lt _ (by norm_num)
    omega

/-- C2 amended: destination 13 is a no-op on all state when bit 20 of the
incoming value is 0; otherwise it takes the shift count
`n = ((Hi >> 1) & 0xF) + 1`, a count in the range 1 to 16 (not 1 to 7), and
for `n ≤ 12` it performs the 40-bit left rotate of the concatenation of A
(high 20 bits) and B (low 20 bits), each register masked to 20 bits
afterwards.  (For `n ≥ 13` the uint32 intermediates truncate and bits are
lost rather than rotated.) -/
theorem combined_shift_spec (c : CSIRAC) (inst v : Nat)
    (hd : Dest inst = 13) (hA : c.A < 1048576) (hB : c.B < 1048576) :
    (v / 524288 % 2 = 0 → WriteDest c inst v = (c, Sig.ok)) ∧
    (v / 524288 % 2 = 1 →
      1 ≤ shiftCount v ∧ shiftCount v ≤ 16 ∧
      (shiftCount v ≤ 12 →
        (WriteDest c inst v).1.A
            = rot40 (c.A * 1048576 + c.B) (shiftCount v) / 1048576 ∧
        (WriteDest c inst v).1.B
            = rot40 (c.A * 1048576 + c.B) (shiftCount v) % 1048576)) := by
  rw [WriteDest_dest13 c inst v hd, wordP20_eq]
  constructor
  · intro h0
    rw [if_pos]
    omega
  · intro h1
    refine ⟨(shiftCount_bounds v).1, (shiftCount_bounds v).2, ?_⟩
    intro h12
    rw [if_neg (by omega)]
    have hA32 : c.A <<< shiftCount v < 4294967296 := by
      rw [Nat.shiftLeft_eq]
      calc c.A * 2 ^ shiftCount v ≤ c.A * 2 ^ 12 :=
            Nat.mul_le_mul_left _ (Nat.pow_le_pow_right (by norm_num) h12)
        _ < 1048576 * 4096 := by omega
        _ ≤ 4294967296 := by norm_num
    have hB32 : c.B <<< shiftCount v < 4294967296 := by
      rw [Nat.shiftLeft_eq]
      calc c.B * 2 ^ shiftCount v ≤ c.B * 2 ^ 12 :=
            Nat.mul_le_mul_left _ (Nat.pow_le_pow_right (by norm_num) h12)
        _ < 1048576 * 4096 := by omega
        _ ≤ 4294967296 := by norm_num
    have hrw : ∀ x : Nat, x < 4294967296 → u32 x = x := fun x hx => u32_eq_of_lt x hx
    have h20 : ∀ y : Nat, y >>> 20 = y / 1048576 := by
      intro y
      rw [Nat.shiftRight_eq_div_pow]
    have hcode := rot40_core (shiftCount v) (by omega) c.A c.B hA hB
    constructor
    · show u32 (u32 (c.A <<< shiftCount v) + (u32 (c.B <<< shiftCount v) >>> 20)) &&& allBits = _
      rw [hrw _ hA32, hrw _ hB32, h20, u32_mod_allBits]
      rw [Nat.shiftLeft_eq, Nat.shiftLeft_eq]
      have := hcode.1
      omega
    · show u32 (u32 (c.B <<< shiftCount v) + (u32 (c.A <<< shiftCount v) >>> 20)) &&& allBits = _
      rw [hrw _ hA32, hrw _ hB32, h20, u32_mod_allBits]
      rw [Nat.shiftLeft_eq, Nat.shiftLeft_eq]
      have := hcode.2
      omega

/-- A machine with A = 0 and B holding only its sign bit, used to exhibit
the lossy behaviour of the combined shifter at count 16. -/
def shiftEx : CSIRAC := { halfC with C := 0, B := 524288 }

/-- C2 as stated is false: the incoming value 0x87800 has bit 20 set and
yields shift count 16, outside the claimed range 1 to 7, and the resulting
A is not the high half of the claimed 40-bit rotation. -/
theorem combined_shift_cex :
    wordP 555008 20 = 1 ∧ shiftCount 555008 = 16 ∧ ¬ (shiftCount 555008 ≤ 7) ∧
    (WriteDest shiftEx 13 555008).1.A
      ≠ rot40 (shiftEx.A * 1048576 + shiftEx.B) (shiftCount 555008) / 1048576 := by
  decide

/-- Witness for C2 (amended): shifting A = 1, B = 0 by the count-3 incoming
value 0x81000 rotates to A = 8. -/
theorem combined_shift_spec_witness :
    (WriteDest { halfC with C := 0, A := 1 } 13 528384).1.A = 8 := by
  have h := combined_shift_spec { halfC with C := 0, A := 1 } 13 528384
    (by decide) (by decide) (by decide)
  rw [(h.2 (by decide) |>.2.2 (by decide)).1]
  decide

/-! ### Sign-bit and shift sources (ReadSource) -/

theorem or_two_pow_of_lt (a k : Nat) (h : a < 2 ^ k) : a ||| 2 ^ k = a + 2 ^ k := by
  apply Nat.eq_of_testBit_eq
  intro i
  rcases Nat.lt_trichotomy i k with hik | hik | hik
  · rw [Nat.testBit_or, Nat.testBit_two_pow_of_ne (by omega),
      show a + 2 ^ k = 2 ^ k + a by ring, Nat.testBit_two_pow_add_gt hik]
    simp
  · subst hik
    rw [Nat.testBit_or, Nat.testBit_two_pow_self,
      show a + 2 ^ i = 2 ^ i + a by ring, Nat.testBit_two_pow_add_eq,
      Nat.testBit_lt_two_pow h]
    simp
  · have h1 : a + 2 ^ k < 2 ^ i := by
      have : 2 ^ (k + 1) ≤ 2 ^ i := Nat.pow_le_pow_right (by norm_num) (by omega)
      have h2 : 2 ^ (k + 1) = 2 ^ k + 2 ^ k := by ring
      omega
    rw [Nat.testBit_or, Nat.testBit_two_pow_of_ne (by omega),
      Nat.testBit_lt_two_pow h1, Nat.testBit_lt_two_pow (by omega)]
    simp

/-- C7: source 5 returns the sign bit of A in its undisturbed position
(0 or the bit-20 value 0x80000), source 15 likewise for C; source 12 returns
the sign bit of B normalized to bit 1 (0 or 1); source 6 returns A
arithmetically shifted right one place with the sign bit replicated
(halving the magnitude while keeping bit 20); sources 13 and 16 return B
and C logically shifted right one place with a zero entering the sign
position. -/
theorem sign_sources_spec (c : CSIRAC)
    (hA : c.A < 1048576) (hB : c.B < 1048576) (hC : c.C < 1048576) :
    (Source c.K = 5 → (ReadSource c).1 = 524288 * (c.A / 524288 % 2)) ∧
    (Source c.K = 15 → (ReadSource c).1 = 524288 * (c.C / 524288 % 2)) ∧
    (Source c.K = 12 → (ReadSource c).1 = c.B / 524288 % 2) ∧
    (Source c.K = 6 → (ReadSource c).1 = c.A / 2 + 524288 * (c.A / 524288 % 2)) ∧
    (Source c.K = 13 → (ReadSource c).1 = c.B / 2 ∧ (ReadSource c).1 < 524288) ∧
    (Source c.K = 16 → (ReadSource c).1 = c.C / 2 ∧ (ReadSource c).1 < 524288) := by
  refine ⟨?_, ?_, ?_, ?_, ?_, ?_⟩
  · intro h
    unfold ReadSource
    rw [h]
    show c.A &&& signBit = _
    rw [and_sign_eq]
  · intro h
    unfold ReadSource
    rw [h]
    show c.C &&& signBit = _
    rw [and_sign_eq]
  · intro h
    unfold ReadSource
    rw [h]
    show wordP c.B 20 = _
    rw [wordP20_eq]
  · intro h
    unfold ReadSource
    rw [h]
    show (c.A >>> 1) ||| (c.A &&& signBit) = _
    rw [and_sign_eq, Nat.shiftRight_eq_div_pow]
    rcases Nat.mod_two_eq_zero_or_one (c.A / 524288) with h2 | h2
    · rw [h2]
      simp
    · rw [h2]
      have hlt : c.A / 2 ^ 1 < 2 ^ 19 := by
        simp only [pow_one]
        omega
      have := or_two_pow_of_lt (c.A / 2 ^ 1) 19 hlt
      norm_num at this ⊢
      omega
  · intro h
    unfold ReadSource
    rw [h]
    show c.B >>> 1 = _ ∧ c.B >>> 1 < _
    rw [Nat.shiftRight_eq_div_pow]
    norm_num
    omega
  · intro h
    unfold ReadSource
    rw [h]
    show c.C >>> 1 = _ ∧ c.C >>> 1 < _
    rw [Nat.shiftRight_eq_div_pow]
    norm_num
    omega

/-- Witness for C7: on a machine with A = 0x80001, B = 0x80000, C = 0x7FFFF
the six sources deliver the stated values. -/
theorem sign_sources_spec_witness :
    (ReadSource { halfC with A := 524289, K := 5 <<< 5 }).1 = 524288 ∧
    (ReadSource { halfC with B := 524288, K := 12 <<< 5 }).1 = 1 ∧
    (ReadSource { halfC with A := 524289, K := 6 <<< 5 }).1 = 786432 := by
  refine ⟨?_, ?_, ?_⟩
  · rw [(sign_sources_spec { halfC with A := 524289, K := 5 <<< 5 }
      (by decide) (by decide) (by decide)).1 (by decide)]
    decide
  · rw [(sign_sources_spec { halfC with B := 524288, K := 12 <<< 5 }
      (by decide) (by decide) (by decide)).2.2.1 (by decide)]
    decide
  · rw [(sign_sources_spec { halfC with A := 524289, K := 6 <<< 5 }
      (by decide) (by decide) (by decide)).2.2.2.1 (by decide)]
    decide

/-! ### Step and the sequence-register destinations -/

theorem P11_eq : P 11 = 1024 := rfl

theorem ReadSource_pres (c : CSIRAC) :
    (ReadSource c).2.S = c.S ∧ (ReadSource c).2.K = c.K ∧
    (ReadSource c).2.M = c.M ∧ (ReadSource c).2.MA = c.MA ∧
    (ReadSource c).2.MB = c.MB ∧ (ReadSource c).2.MC = c.MC ∧
    (ReadSource c).2.MD = c.MD := by
  unfold ReadSource
  split <;> simp

theorem Step_eq (c : CSIRAC) :
    Step c = WriteDest
      { (ReadSource c).2 with
          S := u32 ((ReadSource c).2.S + P 11),
          K := (ReadSource c).2.M (Hi (u32 ((ReadSource c).2.S + P 11))) }
      c.K (ReadSource c).1 := rfl

theorem WriteDest_dest25 (c : CSIRAC) (inst src : Nat) (h : Dest inst = 25) :
    WriteDest c inst src =
      (let s1 := if src &&& 2047 ≠ 0 then u32 (c.S + P 11) else c.S
       let s2 := if src &&& 1032192 ≠ 0 then u32 (s1 + P 11) else s1
       ({ c with S := s2, K := c.M (Hi s2) }, .ok)) := by
  unfold WriteDest
  rw [h]

/-- C4: for every machine state whose instruction has destination field 25
(conditional increment), one Step advances the instruction address (the
upper half of S) by exactly one unit when bit ranges 1-11 and 15-20 of the
source value are both zero, by exactly two units when exactly one range is
nonzero, and by exactly three units when both are nonzero, leaves the lower
half of S unchanged, and re-fetches K from the store at the new address. -/
theorem cond_incr_spec (c : CSIRAC) (hd : Dest c.K = 25) :
    Hi (Step c).1.S =
      (Hi c.S + (1 + (if (ReadSource c).1 % 2048 ≠ 0 then 1 else 0)
          + (if (ReadSource c).1 / 16384 % 64 ≠ 0 then 1 else 0))) % 1024 ∧
    (Step c).1.S % 1024 = c.S % 1024 ∧
    (Step c).1.K = (Step c).1.M (Hi (Step c).1.S) := by
  obtain ⟨hpS, hpK, hpM, -⟩ := ReadSource_pres c
  rw [Step_eq c, WriteDest_dest25 _ c.K (ReadSource c).1 hd]
  simp only [hpS, hpM]
  simp only [and_mask_2047, highRange_and_eq, P11_eq, u32, Hi_eq]
  have h16 : ∀ x : Nat, 16384 * x ≠ 0 ↔ x ≠ 0 := by intro x; omega
  simp only [h16]
  refine ⟨?_, ?_, by trivial⟩ <;>
    split_ifs <;> omega

/-- Witness for C4: the instruction `0 0 M CS` (conditional increment fed
from store cell 0, which holds zero, so both tested ranges are zero)
advances the instruction address by exactly the default single unit,
wrapping from address 1023 to 0. -/
theorem cond_incr_spec_witness :
    Hi (Step { halfC with C := 0, S := 1047552, K := 25 }).1.S = 0 ∧
    (Step { halfC with C := 0, S := 1047552, K := 25 }).1.S % 1024 = 0 := by
  have h := cond_incr_spec { halfC with C := 0, S := 1047552, K := 25 }
    (by decide)
  refine ⟨?_, ?_⟩
  · rw [h.1]
    decide
  · rw [h.2.1]
    decide

/-! ### The 20-bit invariant and the instruction-register invariant -/

/-- A machine with every register and store cell inside 20 bits, S at the
last in-range multiple of 1024 (0xFFC00), and a harmless `Z Z` instruction
(source 20, destination 20). -/
def overS : CSIRAC := { halfC with C := 0, S := 1047552, K := 660 }

/-- C5 (failing-input evaluation): from a state in which every register fits
in 20 bits, a single Step leaves S = 0x100000, a 21-bit value — the
sequence-register updates are not masked to 20 bits — and source 23 then
returns that out-of-range value from ReadSource. -/
theorem s_unmasked_overflow :
    overS.S < 1048576 ∧
    (Step overS).1.S = 1048576 ∧
    ¬ ((Step overS).1.S < 1048576) ∧
    (ReadSource { (Step overS).1 with K := 736 }).1 = 1048576 := by
  decide

/-- A machine whose instruction `1 0 PL M` stores the constant 1 into main
store cell 1 — exactly the cell the advanced sequence register points at. -/
def storeClobber : CSIRAC := { halfC with C := 0, K := 1824 }

/-- C3 as stated is false: a destination-0 store write whose target address
equals the address the sequence register points to after the step leaves K
holding the stale pre-write word, so K differs from the current M[S.Hi()]
when Step returns. -/
theorem k_invariant_cex :
    Dest storeClobber.K = 0 ∧
    (Step storeClobber).1.K ≠ (Step storeClobber).1.M (Hi (Step storeClobber).1.S) := by
  decide

/-- C3 amended: after every Step the instruction register K holds the word
at the main-store address the sequence register now points to
(K = M[S.Hi()]) for every destination except 26 (direct instruction-register
modification) and except a destination-0 store write whose target address
equals the address S points to after the step; the jumps (23, 24, 25)
re-fetch K themselves and the invariant holds for them as well. -/
theorem k_invariant (c : CSIRAC)
    (h26 : Dest c.K ≠ 26)
    (h0 : Dest c.K = 0 → Hi c.K ≠ Hi (u32 (c.S + P 11))) :
    (Step c).1.K = (Step c).1.M (Hi (Step c).1.S) := by
  obtain ⟨hpS, hpK, hpM, -⟩ := ReadSource_pres c
  rw [Step_eq c]
  unfold WriteDest
  split <;>
    solve
      | rfl
      | simp [hpS, hpM]
      | (split <;> rfl)
      | simp_all
      | (rename_i heq
         have hne : ¬ (Hi (u32 (c.S + P 11)) = Hi c.K) := fun hEq => (h0 heq) hEq.symm
         simp [upd, hpS, hpM, hne])

/-- Witness for C3 (amended): a plain register write (`0 0 M A`, destination
4) preserves the invariant K = M[S.Hi()] across Step. -/
theorem k_invariant_witness :
    (Step { halfC with C := 0, K := 4 }).1.K
      = (Step { halfC with C := 0, K := 4 }).1.M
          (Hi (Step { halfC with C := 0, K := 4 }).1.S) :=
  k_invariant { halfC with C := 0, K := 4 } (by decide) (by decide)

end Csirac
